import Mathlib

/-!
Shallow embedding of the sequencing and audio-rendering core of the
AI-Beat-Maker web application (`main.js`), with proofs about the properties
its specification states.  JavaScript `Number` arithmetic on the audio path
is modelled exactly over `ℚ`; JavaScript's `| 0` and the WebIDL
`unsigned long` argument conversion are modelled as explicit truncation
toward zero followed by wrapping.
-/

namespace BeatMaker

/-- Truncation toward zero on rationals: the integer part that JavaScript's
`| 0` and the WebIDL integer conversions start from. -/
def ratTrunc (q : ℚ) : ℤ := if q < 0 then ⌈q⌉ else ⌊q⌋

/-- JavaScript `x | 0`: truncate toward zero, then wrap into a signed
32-bit integer. -/
def toInt32 (q : ℚ) : ℤ := (ratTrunc q + 2 ^ 31) % 2 ^ 32 - 2 ^ 31

/-- WebIDL `unsigned long` conversion applied to a JavaScript number:
truncate toward zero, then wrap modulo `2 ^ 32`. -/
def toUint32 (q : ℚ) : ℕ := ((ratTrunc q) % 2 ^ 32).toNat

theorem ratTrunc_le {a : ℤ} {q : ℚ} (h : q ≤ (a : ℚ)) : ratTrunc q ≤ a := by
  unfold ratTrunc
  split
  · exact Int.ceil_le.mpr h
  · calc ⌊q⌋ ≤ ⌊(a : ℚ)⌋ := Int.floor_le_floor h
      _ = a := Int.floor_intCast a

theorem le_ratTrunc {a : ℤ} {q : ℚ} (h : (a : ℚ) ≤ q) : a ≤ ratTrunc q := by
  unfold ratTrunc
  split
  · calc a = ⌈(a : ℚ)⌉ := (Int.ceil_intCast a).symm
      _ ≤ ⌈q⌉ := Int.ceil_le_ceil h
  · exact Int.le_floor.mpr h

theorem toInt32_eq_ratTrunc {q : ℚ} (h1 : -(2 ^ 31) ≤ ratTrunc q)
    (h2 : ratTrunc q < 2 ^ 31) : toInt32 q = ratTrunc q := by
  unfold toInt32
  omega

theorem ratTrunc_nonneg_eq_floor {q : ℚ} (h : 0 ≤ q) : ratTrunc q = ⌊q⌋ := by
  unfold ratTrunc
  rw [if_neg (not_lt.mpr h)]

/-! ## Audio Encoder: the clipping / quantization stage of `bufferToWav` -/

/-- `Math.max(-1, Math.min(1, channels[i][offset]))` — the clip stage of
`bufferToWav`. -/
def clip (s : ℚ) : ℚ := max (-1) (min 1 s)

/-- `sample = (0.5 + sample < 0 ? sample * 32768 : sample * 32767) | 0`
applied to the clipped sample — the quantization stage of `bufferToWav`.
JavaScript operator precedence makes the condition `(0.5 + sample) < 0`. -/
def quantize (s : ℚ) : ℤ :=
  toInt32 (if 0.5 + clip s < 0 then clip s * 32768 else clip s * 32767)

/-- Modelled from the spec: after clipping to `[-1, 1]`, "negative values
scaled by 32768, positive by 32767", truncated to a signed 16-bit integer. -/
def quantizeSpec (s : ℚ) : ℤ :=
  ratTrunc (if clip s < 0 then clip s * 32768 else clip s * 32767)

theorem neg_one_le_clip (s : ℚ) : -1 ≤ clip s := le_max_left _ _

theorem clip_le_one (s : ℚ) : clip s ≤ 1 :=
  max_le (by norm_num) (min_le_left _ _)

/-- C2 (counterexample): the sample `-1/4` is negative after clipping, yet the
encoder scales it by 32767 (giving `-8191`), not by 32768 (which would give
`-8192`): the code's comparison `0.5 + sample < 0` tests `sample < -0.5`,
not `sample < 0`. -/
theorem quantize_neg_quarter_ne_spec :
    quantize (-(1 / 4)) = -8191 ∧ quantizeSpec (-(1 / 4)) = -8192 := by
  have hc : clip (-(1 / 4)) = -(1 / 4) := by
    unfold clip
    rw [min_eq_right (by norm_num), max_eq_right (by norm_num)]
  have hceil : ⌈(-(1 / 4) * 32767 : ℚ)⌉ = -8191 := by
    rw [Int.ceil_eq_iff]
    constructor <;> norm_num
  constructor
  · unfold quantize
    rw [hc, if_neg (by norm_num : ¬((0.5 : ℚ) + -(1 / 4) < 0))]
    unfold toInt32 ratTrunc
    rw [if_pos (by norm_num : (-(1 / 4) * 32767 : ℚ) < 0), hceil]
    omega
  · unfold quantizeSpec
    rw [hc, if_pos (by norm_num : (-(1 / 4) : ℚ) < 0)]
    unfold ratTrunc
    rw [if_pos (by norm_num : (-(1 / 4) * 32768 : ℚ) < 0)]
    rw [show (-(1 / 4) * 32768 : ℚ) = ((-8192 : ℤ) : ℚ) by norm_num, Int.ceil_intCast]

/-- C2 (amended): each floating-point sample is clipped to `[-1, 1]`; a
clipped value below `-0.5` is then scaled by 32768 and a clipped value at or
above `-0.5` is scaled by 32767, before truncation toward zero; the encoder
agrees with the spec's "negatives scaled by 32768" rule exactly outside the
clipped range `[-0.5, 0)`. -/
theorem quantize_amended (s : ℚ) :
    quantize s =
      ratTrunc (if clip s < -(1 / 2) then clip s * 32768 else clip s * 32767) ∧
    (clip s < -(1 / 2) ∨ 0 ≤ clip s → quantize s = quantizeSpec s) := by
  have hlo := neg_one_le_clip s
  have hhi := clip_le_one s
  have hcond : (0.5 + clip s < 0) ↔ clip s < -(1 / 2) := by
    constructor <;> intro h <;> linarith
  have hmain : quantize s =
      ratTrunc (if clip s < -(1 / 2) then clip s * 32768 else clip s * 32767) := by
    unfold quantize
    by_cases h : clip s < -(1 / 2)
    · rw [if_pos (hcond.mpr h), if_pos h]
      apply toInt32_eq_ratTrunc
      · exact le_ratTrunc (by push_cast; linarith)
      · exact lt_of_le_of_lt (ratTrunc_le (a := -16384) (by push_cast; linarith)) (by norm_num)
    · rw [if_neg (fun hc => h (hcond.mp hc)), if_neg h]
      exact toInt32_eq_ratTrunc
        (le_trans (by norm_num) (le_ratTrunc (a := -32767) (by push_cast; linarith)))
        (lt_of_le_of_lt (ratTrunc_le (a := 32767) (by push_cast; linarith)) (by norm_num))
  refine ⟨hmain, fun hcase => ?_⟩
  rcases hcase with h | h
  · rw [hmain, if_pos h]
    unfold quantizeSpec
    rw [if_pos (by linarith)]
  · rw [hmain, if_neg (by linarith)]
    unfold quantizeSpec
    rw [if_neg (by linarith)]

/-- Witness for `quantize_amended`: at the concrete sample `-3/4` the clipped
value is below `-0.5`, and the encoder agrees with the spec's scaling. -/
theorem quantize_amended_witness :
    quantize (-(3 / 4)) = quantizeSpec (-(3 / 4)) :=
  (quantize_amended (-(3 / 4))).2 (Or.inl (by
    unfold clip
    rw [min_eq_right (by norm_num), max_eq_right (by norm_num)]
    norm_num))

/-! ## Offline Renderer: frame count of the `OfflineAudioContext` -/

/-- `const totalBeats = 16` in `renderBeatToWav`. -/
def renderTotalBeats : ℕ := 16

/-- The `length` argument of
`new OfflineAudioContext(2, 44100 * duration, 44100)` where
`duration = totalBeats * timePerBeat` and `timePerBeat = 60.0 / bpm`;
the WebIDL `unsigned long` conversion truncates the value. -/
def renderFrames (bpm : ℚ) : ℕ :=
  toUint32 (44100 * ((renderTotalBeats : ℚ) * (60 / bpm)))

/-- Modelled from the spec: output duration in frames equals
`round(totalBeats * 60/bpm * 44100)`. -/
def specRenderFrames (bpm : ℚ) : ℤ :=
  round ((renderTotalBeats : ℚ) * (60 / bpm) * 44100)

/-- C4 (counterexample): at `bpm = 67` the exact frame count is
`42336000 / 67 ≈ 631880.597`; the code truncates to `631880` while the spec's
`round` gives `631881`. -/
theorem renderFrames_67_ne_spec :
    renderFrames 67 = 631880 ∧ specRenderFrames 67 = 631881 := by
  constructor
  · unfold renderFrames toUint32 ratTrunc renderTotalBeats
    norm_num
    rfl
  · unfold specRenderFrames renderTotalBeats
    rw [round_eq]
    norm_num

/-- C4 (amended): for every `bpm ≥ 1`, the Offline Renderer's buffer length in
frames equals `⌊totalBeats * 60/bpm * 44100⌋` — the value truncated by the
WebIDL `unsigned long` conversion, not rounded — and this agrees with the
spec's `round(totalBeats * 60/bpm * 44100)` exactly when the fractional part
of the exact frame count is below one half. -/
theorem renderFrames_amended (bpm : ℚ) (h : 1 ≤ bpm) :
    (renderFrames bpm : ℤ) = ⌊(42336000 : ℚ) / bpm⌋ ∧
    ((renderFrames bpm : ℤ) = specRenderFrames bpm ↔
      Int.fract ((42336000 : ℚ) / bpm) < 1 / 2) := by
  have hbpm : (0 : ℚ) < bpm := lt_of_lt_of_le one_pos h
  have hq : 44100 * ((renderTotalBeats : ℚ) * (60 / bpm)) = 42336000 / bpm := by
    unfold renderTotalBeats
    push_cast
    field_simp
    ring
  set q : ℚ := (42336000 : ℚ) / bpm with hqdef
  have hq0 : 0 ≤ q := by positivity
  have hqle : q ≤ 42336000 := by
    rw [hqdef, div_le_iff₀ hbpm]
    nlinarith
  have hfl0 : 0 ≤ ⌊q⌋ := Int.floor_nonneg.mpr hq0
  have hflle : ⌊q⌋ ≤ 42336000 := by
    calc ⌊q⌋ ≤ ⌊(42336000 : ℚ)⌋ := Int.floor_le_floor hqle
      _ = 42336000 := by norm_num
  have htr : ratTrunc (44100 * ((renderTotalBeats : ℚ) * (60 / bpm))) = ⌊q⌋ := by
    rw [hq]
    exact ratTrunc_nonneg_eq_floor hq0
  have hmain : (renderFrames bpm : ℤ) = ⌊q⌋ := by
    unfold renderFrames toUint32
    rw [htr]
    omega
  refine ⟨hmain, ?_⟩
  have hspec : specRenderFrames bpm = ⌊q + 1 / 2⌋ := by
    unfold specRenderFrames
    rw [round_eq]
    congr 1
    rw [hqdef]
    unfold renderTotalBeats
    push_cast
    field_simp
    ring
  rw [hmain, hspec]
  have hfract : Int.fract q = q - ⌊q⌋ := rfl
  constructor
  · intro hfr
    by_contra hge
    push_neg at hge
    rw [hfract] at hge
    have h2 : ⌊q⌋ + 1 ≤ ⌊q + 1 / 2⌋ :=
      Int.le_floor.mpr (by push_cast; linarith)
    omega
  · intro hlt
    rw [hfract] at hlt
    symm
    apply Int.floor_eq_iff.mpr
    constructor
    · have := Int.floor_le q
      linarith
    · linarith

/-- Witness for `renderFrames_amended`: at `bpm = 120` the frame count is the
exact integer `352800`, so truncation and the spec's rounding agree. -/
theorem renderFrames_amended_witness :
    (renderFrames 120 : ℤ) = ⌊(42336000 : ℚ) / 120⌋ :=
  (renderFrames_amended 120 (by norm_num)).1

/-! ## Sequence model, Playback Scheduler and Offline Renderer scheduling -/

/-- A step of a track: `{beat, file}`; an empty `file` stands for the
falsy/absent file field meaning "rest". -/
structure Step where
  beat : ℕ
  file : String
deriving Repr, DecidableEq

/-- A track: `{name, steps}`. -/
structure Track where
  name : String
  steps : List Step
deriving Repr, DecidableEq

/-- One live tick for one track at beat `b`:
`track.steps.find(s => s.beat === currentBeat)` followed by the
`if (step && step.file)` guard, and `playSample`'s check that the sample is
resident in `loadedSamples` before a source is started. -/
def liveTriggeredFiles (loaded : String → Bool) (track : Track) (b : ℕ) :
    List String :=
  match track.steps.find? (fun s => s.beat == b) with
  | some s => if !s.file.isEmpty && loaded s.file then [s.file] else []
  | none => []

/-- The Offline Renderer's scheduling for one track restricted to beat `b`:
`track.steps.forEach(step => { if (step.file) playSample(step.file, step.beat * timePerBeat, offlineContext) })`
keeps every step whose file is truthy (and resident), not only the first
one at each beat. -/
def offlineTriggeredFiles (loaded : String → Bool) (track : Track) (b : ℕ) :
    List String :=
  (track.steps.filter
      (fun s => s.beat == b && (!s.file.isEmpty && loaded s.file))).map
    (fun s => s.file)

/-- Files triggered by one live tick of the whole sequence at beat `b`. -/
def liveTickFiles (loaded : String → Bool) (seq : List Track) (b : ℕ) :
    List String :=
  seq.flatMap (fun track => liveTriggeredFiles loaded track b)

/-- Files the Offline Renderer starts at time `b * timePerBeat` for the whole
sequence. -/
def offlineTickFiles (loaded : String → Bool) (seq : List Track) (b : ℕ) :
    List String :=
  seq.flatMap (fun track => offlineTriggeredFiles loaded track b)

/-- A track declaring two steps at the same beat 3. -/
def dupTrack : Track := ⟨"Kick", [⟨3, "a.wav"⟩, ⟨3, "b.wav"⟩]⟩

/-- C1 (counterexample): on a track with two steps at beat 3, the live
scheduler triggers only the first-declared one, but the Offline Renderer
triggers both — so live playback and offline render do not produce identical
output for this Sequence, contrary to the claim. -/
theorem offline_fires_second_dup_step :
    liveTickFiles (fun _ => true) [dupTrack] 3 = ["a.wav"] ∧
    offlineTickFiles (fun _ => true) [dupTrack] 3 = ["a.wav", "b.wav"] :=
  ⟨rfl, rfl⟩

theorem find_eq_filter_of_at_most_one (loaded : String → Bool) (b : ℕ) :
    ∀ steps : List Step, (steps.filter (fun s => s.beat == b)).length ≤ 1 →
      (match steps.find? (fun s => s.beat == b) with
        | some s => if !s.file.isEmpty && loaded s.file then [s.file] else []
        | none => []) =
      (steps.filter
          (fun s => s.beat == b && (!s.file.isEmpty && loaded s.file))).map
        (fun s => s.file)
  | [], _ => rfl
  | s :: rest, h => by
    simp only [List.find?_cons, List.filter_cons] at h ⊢
    cases hbeat : (s.beat == b) with
    | true =>
      simp only [hbeat, Bool.true_and, if_true] at h ⊢
      have hfil : List.filter (fun s => s.beat == b) rest = [] := by
        simp only [List.length_cons] at h
        exact List.eq_nil_of_length_eq_zero (by omega)
      have hfil2 : List.filter
          (fun s => s.beat == b && (!s.file.isEmpty && loaded s.file)) rest = [] := by
        rw [List.filter_eq_nil_iff]
        intro x hx hpx
        exact (List.filter_eq_nil_iff.mp hfil) x hx (Bool.and_elim_left hpx)
      cases hg : (!s.file.isEmpty && loaded s.file) with
      | true => simp [hg, hfil2]
      | false => simp [hg, hfil2]
    | false =>
      simp only [hbeat, Bool.false_and, if_false] at h ⊢
      exact find_eq_filter_of_at_most_one loaded b rest h

theorem liveTriggeredFiles_eq_offline (loaded : String → Bool) (track : Track)
    (h : (track.steps.filter (fun s => s.beat == b)).length ≤ 1) :
    liveTriggeredFiles loaded track b = offlineTriggeredFiles loaded track b :=
  find_eq_filter_of_at_most_one loaded b track.steps h

/-- C1 (amended): the live Playback Scheduler triggers only the
first-declared step at each beat, while the Offline Renderer triggers every
declared step; for Sequences in which no track declares two steps at the
same beat, live playback and offline render trigger identical files at every
beat. -/
theorem live_eq_offline_of_no_dup_beats (loaded : String → Bool)
    (seq : List Track)
    (h : ∀ track ∈ seq, ∀ b : ℕ,
      (track.steps.filter (fun s => s.beat == b)).length ≤ 1) (b : ℕ) :
    liveTickFiles loaded seq b = offlineTickFiles loaded seq b := by
  induction seq with
  | nil => rfl
  | cons t rest ih =>
    unfold liveTickFiles offlineTickFiles
    rw [List.flatMap_cons, List.flatMap_cons,
      liveTriggeredFiles_eq_offline loaded t (h t (List.mem_cons_self t rest) b)]
    have := ih (fun tr htr => h tr (List.mem_cons_of_mem _ htr))
    unfold liveTickFiles offlineTickFiles at this
    rw [this]

/-- The end-to-end example track of the spec:
`[{name:"Kick", steps:[{beat:0,file:"k.wav"},{beat:4,file:"k.wav"}]}]`. -/
def kickTrack : Track := ⟨"Kick", [⟨0, "k.wav"⟩, ⟨4, "k.wav"⟩]⟩

/-- Witness for `live_eq_offline_of_no_dup_beats` on the spec's own example
sequence, whose beats are not duplicated. -/
theorem live_eq_offline_witness :
    liveTickFiles (fun _ => true) [kickTrack] 0 =
      offlineTickFiles (fun _ => true) [kickTrack] 0 :=
  live_eq_offline_of_no_dup_beats (fun _ => true) [kickTrack]
    (by
      intro track htrack b
      simp only [List.mem_singleton] at htrack
      subst htrack
      show (List.filter (fun s => s.beat == b)
        [(⟨0, "k.wav"⟩ : Step), ⟨4, "k.wav"⟩]).length ≤ 1
      simp only [List.filter_cons, List.filter_nil]
      (split_ifs <;> simp_all)
      omega)
    0

/-! ## Playback Scheduler state machine -/

/-- The mutable playback state of the app: the `isPlaying` flag, the
`sequencerInterval` timer handle, the running closure's beat counter, the
tempo, the status line and the current sequence. -/
structure PlayerState where
  isPlaying : Bool
  hasInterval : Bool
  currentBeat : ℕ
  bpm : ℕ
  status : String
  currentSequence : List Track
deriving Repr, DecidableEq

/-- `const totalBeats = 16` in `togglePlayback`. -/
def liveTotalBeats : ℕ := 16

/-- `togglePlayback()`: a no-op on an empty sequence; otherwise stop (clear
the timer) when playing, or start (fresh timer, `let currentBeat = 0`) when
stopped. -/
def togglePlayback (st : PlayerState) : PlayerState :=
  if st.currentSequence.isEmpty then st
  else if st.isPlaying then
    { st with isPlaying := false, hasInterval := false }
  else
    { st with isPlaying := true, hasInterval := true, currentBeat := 0 }

/-- One firing of the `setInterval` callback: the beat counter advances by
`currentBeat = (currentBeat + 1) % totalBeats`. -/
def tick (st : PlayerState) : PlayerState :=
  if st.hasInterval then
    { st with currentBeat := (st.currentBeat + 1) % liveTotalBeats }
  else st

/-- The `bpmSlider` input handler: store the parsed tempo and, when playing,
call `togglePlayback()` twice (stop, then start again). -/
def bpmInput (v : ℕ) (st : PlayerState) : PlayerState :=
  let st' := { st with bpm := v }
  if st'.isPlaying then togglePlayback (togglePlayback st') else st'

/-- C9: a transition from Stopped to Running always begins at beat 0; the
stop+restart performed by a tempo change while playing also lands on beat 0
and leaves the scheduler running; and every tick advances the beat counter by
one modulo 16. -/
theorem restart_resets_beat :
    (∀ st : PlayerState, st.isPlaying = false →
      (togglePlayback st).isPlaying = true → (togglePlayback st).currentBeat = 0) ∧
    (∀ (v : ℕ) (st : PlayerState), st.isPlaying = true →
      st.currentSequence.isEmpty = false →
      (bpmInput v st).isPlaying = true ∧ (bpmInput v st).currentBeat = 0) ∧
    (∀ st : PlayerState, st.hasInterval = true →
      (tick st).currentBeat = (st.currentBeat + 1) % 16) := by
  refine ⟨?_, ?_, ?_⟩
  · intro st hstop hrun
    unfold togglePlayback at *
    by_cases hseq : st.currentSequence.isEmpty
    · rw [if_pos hseq] at hrun
      rw [hstop] at hrun
      exact absurd hrun (by simp)
    · rw [if_neg hseq, hstop] at *
      simp
  · intro v st hplay hseq
    unfold bpmInput
    simp only [hplay, if_pos]
    unfold togglePlayback
    simp [hseq, hplay]
  · intro st hti
    unfold tick liveTotalBeats
    rw [if_pos hti]

/-- Witness for `restart_resets_beat`: a tempo change while playing at beat 7
restarts the scheduler at beat 0. -/
theorem restart_resets_beat_witness :
    (bpmInput 140 ⟨true, true, 7, 120, "", [kickTrack]⟩).currentBeat = 0 :=
  (restart_resets_beat.2.1 140 ⟨true, true, 7, 120, "", [kickTrack]⟩ rfl rfl).2

/-- `renderBeatToWav()` modelled up to the point where the rendered buffer is
encoded: `none` means the early-return guard `if (!currentSequence.length)`
fired and no render or download was produced; otherwise the frame count of
the `OfflineAudioContext` and the `(startTime, file)` schedule it receives
are returned, and the status line is the one set after the download. -/
def renderBeatToWav (loaded : String → Bool) (st : PlayerState) :
    PlayerState × Option (ℕ × List (ℚ × String)) :=
  if st.currentSequence.isEmpty then (st, none)
  else
    let timePerBeat : ℚ := 60 / (st.bpm : ℚ)
    ({ st with status := "Download complete!" },
      some (renderFrames (st.bpm : ℚ),
        st.currentSequence.flatMap (fun track =>
          (track.steps.filter (fun s => !s.file.isEmpty && loaded s.file)).map
            (fun s => ((s.beat : ℚ) * timePerBeat, s.file)))))

/-- C10: with an empty current Sequence, both play/stop toggling and offline
rendering are no-ops — the state (including the playing flag) is unchanged,
no timer is created, and no render or download is produced. -/
theorem empty_sequence_noop (loaded : String → Bool) (st : PlayerState)
    (h : st.currentSequence = []) :
    togglePlayback st = st ∧ renderBeatToWav loaded st = (st, none) := by
  have he : st.currentSequence.isEmpty = true := by rw [h]; rfl
  unfold togglePlayback renderBeatToWav
  rw [if_pos he, if_pos he]
  exact ⟨rfl, rfl⟩

/-- Witness for `empty_sequence_noop` at a concrete stopped state with an
empty sequence. -/
theorem empty_sequence_noop_witness :
    togglePlayback ⟨false, false, 0, 120, "", []⟩ =
      (⟨false, false, 0, 120, "", []⟩ : PlayerState) :=
  (empty_sequence_noop (fun _ => true) ⟨false, false, 0, 120, "", []⟩ rfl).1

/-! ## Audio Encoder: `bufferToWav` byte layout -/

/-- `view.setUint16(pos, data, true)`: the two little-endian bytes written for
a 16-bit field (JavaScript wraps the value modulo `2 ^ 16` first, which the
byte decomposition already realizes). -/
def u16le (n : ℕ) : List ℕ := [n % 256, n / 256 % 256]

/-- `view.setUint32(pos, data, true)`: the four little-endian bytes written
for a 32-bit field. -/
def u32le (n : ℕ) : List ℕ :=
  [n % 256, n / 256 % 256, n / 65536 % 256, n / 16777216 % 256]

/-- `view.setInt16(pos, sample, true)`: the two's-complement 16-bit
little-endian bytes of an integer sample. -/
def i16le (v : ℤ) : List ℕ := u16le ((v % 65536).toNat)

/-- The in-memory PCM buffer handed to `bufferToWav`: channel count, frame
count (`buffer.length`), sample rate, and the per-channel data returned by
`buffer.getChannelData(i)`. -/
structure AudioBuffer where
  numberOfChannels : ℕ
  length : ℕ
  sampleRate : ℕ
  channelData : ℕ → ℕ → ℚ

/-- `bufferToWav(buffer)`: the 44-byte RIFF/WAVE header followed by the
interleaved clipped-and-quantized 16-bit little-endian samples — the byte
sequence backing the returned Blob. -/
def bufferToWav (b : AudioBuffer) : List ℕ :=
  let numOfChan := b.numberOfChannels
  let len := b.length * numOfChan * 2 + 44
  u32le 0x46464952 ++ u32le (len - 8) ++ u32le 0x45564157 ++
  u32le 0x20746d66 ++ u32le 16 ++ u16le 1 ++ u16le numOfChan ++
  u32le b.sampleRate ++ u32le (b.sampleRate * 2 * numOfChan) ++
  u16le (numOfChan * 2) ++ u16le 16 ++ u32le 0x61746164 ++
  u32le (len - 44) ++
  (List.range b.length).flatMap (fun off =>
    (List.range numOfChan).flatMap (fun i => i16le (quantize (b.channelData i off))))

/-- Read the little-endian 16-bit field at byte offset `off`. -/
def readU16 (bytes : List ℕ) (off : ℕ) : ℕ :=
  bytes.getD off 0 + 256 * bytes.getD (off + 1) 0

/-- Read the little-endian 32-bit field at byte offset `off`. -/
def readU32 (bytes : List ℕ) (off : ℕ) : ℕ :=
  readU16 bytes off + 65536 * readU16 bytes (off + 2)

theorem readU16_u32le_shift (m : ℕ) (rest : List ℕ) (k : ℕ) :
    readU16 (u32le m ++ rest) (k + 4) = readU16 rest k := by
  simp [u32le, readU16, List.getD_cons_succ, Nat.add_assoc]

theorem readU16_u16le_shift (m : ℕ) (rest : List ℕ) (k : ℕ) :
    readU16 (u16le m ++ rest) (k + 2) = readU16 rest k := by
  simp [u16le, readU16, List.getD_cons_succ, Nat.add_assoc]

theorem readU32_u32le_shift (m : ℕ) (rest : List ℕ) (k : ℕ) :
    readU32 (u32le m ++ rest) (k + 4) = readU32 rest k := by
  simp [readU32, readU16_u32le_shift, Nat.add_assoc]

theorem readU32_u16le_shift (m : ℕ) (rest : List ℕ) (k : ℕ) :
    readU32 (u16le m ++ rest) (k + 2) = readU32 rest k := by
  simp [readU32, readU16_u16le_shift, Nat.add_assoc]

theorem readU16_u16le (n : ℕ) (rest : List ℕ) (h : n < 65536) :
    readU16 (u16le n ++ rest) 0 = n := by
  simp [u16le, readU16]
  omega

theorem readU32_u32le (n : ℕ) (rest : List ℕ) (h : n < 4294967296) :
    readU32 (u32le n ++ rest) 0 = n := by
  simp [u32le, readU32, readU16]
  omega

theorem length_flatMap_const {α : Type} (f : ℕ → List α) (k : ℕ)
    (hf : ∀ i, (f i).length = k) :
    ∀ n, ((List.range n).flatMap f).length = n * k := by
  intro n
  induction n with
  | zero => simp
  | succ m ih =>
    rw [List.range_succ, List.flatMap_append, List.length_append, ih]
    simp [hf m]
    ring

/-- C5: the encoder's output is exactly `44 + frames * channels * 2` bytes,
and the 44-byte header carries the RIFF / WAVE / "fmt " / "data" tags, PCM
format tag 1, the buffer's channel count and sample rate, byte rate
`sampleRate * 2 * channels`, block alignment `channels * 2` and bit depth
16, in their standard little-endian positions. -/
theorem bufferToWav_layout (b : AudioBuffer)
    (hchan : b.numberOfChannels * 2 < 65536)
    (hrate : b.sampleRate * 2 * b.numberOfChannels < 4294967296)
    (hrate2 : b.sampleRate < 4294967296) :
    (bufferToWav b).length = 44 + b.length * b.numberOfChannels * 2 ∧
    readU32 (bufferToWav b) 0 = 0x46464952 ∧
    readU32 (bufferToWav b) 8 = 0x45564157 ∧
    readU32 (bufferToWav b) 12 = 0x20746d66 ∧
    readU32 (bufferToWav b) 36 = 0x61746164 ∧
    readU16 (bufferToWav b) 20 = 1 ∧
    readU16 (bufferToWav b) 22 = b.numberOfChannels ∧
    readU32 (bufferToWav b) 24 = b.sampleRate ∧
    readU32 (bufferToWav b) 28 = b.sampleRate * 2 * b.numberOfChannels ∧
    readU16 (bufferToWav b) 32 = b.numberOfChannels * 2 ∧
    readU16 (bufferToWav b) 34 = 16 := by
  have hdata : ((List.range b.length).flatMap (fun off =>
      (List.range b.numberOfChannels).flatMap
        (fun i => i16le (quantize (b.channelData i off))))).length =
      b.length * (b.numberOfChannels * 2) := by
    apply length_flatMap_const
    intro off
    exact length_flatMap_const (fun i => i16le (quantize (b.channelData i off))) 2
      (fun _ => rfl) b.numberOfChannels
  refine ⟨?_, ?_, ?_, ?_, ?_, ?_, ?_, ?_, ?_, ?_, ?_⟩
  · have hlen : (bufferToWav b).length = 44 + ((List.range b.length).flatMap (fun off =>
        (List.range b.numberOfChannels).flatMap
          (fun i => i16le (quantize (b.channelData i off))))).length := by
      simp [bufferToWav, u32le, u16le]
      ring
    rw [hlen, hdata]
    ring
  · simp only [bufferToWav, List.append_assoc]
    rw [readU32_u32le _ _ (by decide)]
  · simp only [bufferToWav, List.append_assoc]
    rw [readU32_u32le_shift, readU32_u32le_shift, readU32_u32le _ _ (by decide)]
  · simp only [bufferToWav, List.append_assoc]
    rw [readU32_u32le_shift, readU32_u32le_shift, readU32_u32le_shift,
      readU32_u32le _ _ (by decide)]
  · simp only [bufferToWav, List.append_assoc]
    rw [readU32_u32le_shift, readU32_u32le_shift, readU32_u32le_shift,
      readU32_u32le_shift, readU32_u32le_shift, readU32_u16le_shift,
      readU32_u16le_shift, readU32_u32le_shift, readU32_u32le_shift,
      readU32_u16le_shift, readU32_u16le_shift, readU32_u32le _ _ (by decide)]
  · simp only [bufferToWav, List.append_assoc]
    rw [readU16_u32le_shift, readU16_u32le_shift, readU16_u32le_shift,
      readU16_u32le_shift, readU16_u32le_shift, readU16_u16le _ _ (by decide)]
  · simp only [bufferToWav, List.append_assoc]
    rw [readU16_u32le_shift, readU16_u32le_shift, readU16_u32le_shift,
      readU16_u32le_shift, readU16_u32le_shift, readU16_u16le_shift,
      readU16_u16le _ _ (by omega)]
  · simp only [bufferToWav, List.append_assoc]
    rw [readU32_u32le_shift, readU32_u32le_shift, readU32_u32le_shift,
      readU32_u32le_shift, readU32_u32le_shift, readU32_u16le_shift,
      readU32_u16le_shift, readU32_u32le _ _ hrate2]
  · simp only [bufferToWav, List.append_assoc]
    rw [readU32_u32le_shift, readU32_u32le_shift, readU32_u32le_shift,
      readU32_u32le_shift, readU32_u32le_shift, readU32_u16le_shift,
      readU32_u16le_shift, readU32_u32le_shift, readU32_u32le _ _ hrate]
  · simp only [bufferToWav, List.append_assoc]
    rw [readU16_u32le_shift, readU16_u32le_shift, readU16_u32le_shift,
      readU16_u32le_shift, readU16_u32le_shift, readU16_u16le_shift,
      readU16_u16le_shift, readU16_u32le_shift, readU16_u32le_shift,
      readU16_u16le _ _ hchan]
  · simp only [bufferToWav, List.append_assoc]
    rw [readU16_u32le_shift, readU16_u32le_shift, readU16_u32le_shift,
      readU16_u32le_shift, readU16_u32le_shift, readU16_u16le_shift,
      readU16_u16le_shift, readU16_u32le_shift, readU16_u32le_shift,
      readU16_u16le_shift, readU16_u16le _ _ (by decide)]

/-- Witness for `bufferToWav_layout` on a one-frame stereo 44100 Hz buffer. -/
theorem bufferToWav_layout_witness :
    (bufferToWav ⟨2, 1, 44100, fun _ _ => 0⟩).length = 44 + 1 * 2 * 2 :=
  (bufferToWav_layout ⟨2, 1, 44100, fun _ _ => 0⟩ (by decide) (by decide)
    (by decide)).1

/-! ## Generation Orchestrator: `JSON.parse` and `extractJson` -/

/-- A JSON value as produced by `JSON.parse`; numbers carry their exact
rational value. -/
inductive Json where
  | null
  | bool (b : Bool)
  | num (q : ℚ)
  | str (s : String)
  | arr (elems : List Json)
  | obj (members : List (String × Json))

/-- Whitespace accepted between JSON tokens. -/
def isJsonWs (c : Char) : Bool :=
  c == ' ' || c == '\t' || c == '\n' || c == '\r'

def skipWs : List Char → List Char
  | [] => []
  | c :: cs => if isJsonWs c then skipWs cs else c :: cs

def digitVal (c : Char) : ℕ := c.toNat - 48

def digitsToNat (ds : List Char) : ℕ :=
  ds.foldl (fun a c => a * 10 + digitVal c) 0

/-- Split off a maximal run of decimal digits. -/
def takeDigits : List Char → List Char × List Char
  | [] => ([], [])
  | c :: rest =>
    if c.isDigit then
      let p := takeDigits rest
      (c :: p.1, p.2)
    else ([], c :: rest)

theorem takeDigits_sublength : ∀ cs : List Char, (takeDigits cs).2.length ≤ cs.length
  | [] => le_refl _
  | c :: rest => by
    unfold takeDigits
    by_cases h : c.isDigit
    · simp only [h, if_true]
      exact le_trans (takeDigits_sublength rest) (Nat.le_succ _)
    · simp [h]

/-- The integer part of a strict JSON number: `0`, or a nonzero digit followed
by digits (no leading zeros). -/
def parseIntPart : List Char → Option (ℕ × List Char)
  | [] => none
  | '0' :: rest => some (0, rest)
  | c :: rest =>
    if c.isDigit then
      let p := takeDigits rest
      some (digitsToNat (c :: p.1), p.2)
    else none

def pow10N : ℕ → ℚ
  | 0 => 1
  | n + 1 => 10 * pow10N n

/-- The optional fraction part: `.` followed by one or more digits; yields the
fractional value (0 when absent). -/
def parseFrac : List Char → Option (ℚ × List Char)
  | '.' :: rest =>
    match rest with
    | c :: rest2 =>
      if c.isDigit then
        let p := takeDigits rest2
        some ((digitsToNat (c :: p.1) : ℚ) / pow10N (c :: p.1).length, p.2)
      else none
    | [] => none
  | cs => some (0, cs)

/-- The optional exponent part: `e`/`E`, optional sign, one or more digits. -/
def parseExp : List Char → Option (ℤ × List Char)
  | [] => some (0, [])
  | c :: rest =>
    if c == 'e' || c == 'E' then
      let signed : ℤ × List Char :=
        match rest with
        | '+' :: r => (1, r)
        | '-' :: r => (-1, r)
        | r => (1, r)
      match signed.2 with
      | d :: rest3 =>
        if d.isDigit then
          let p := takeDigits rest3
          some (signed.1 * (digitsToNat (d :: p.1) : ℤ), p.2)
        else none
      | [] => none
    else some (0, c :: rest)

def pow10Z (e : ℤ) : ℚ :=
  if 0 ≤ e then pow10N e.toNat else 1 / pow10N (-e).toNat

/-- A strict JSON number literal, as an exact rational. -/
def parseNumber (cs : List Char) : Option (ℚ × List Char) :=
  let signed : Bool × List Char :=
    match cs with
    | '-' :: rest => (true, rest)
    | _ => (false, cs)
  match parseIntPart signed.2 with
  | none => none
  | some (ip, cs2) =>
    match parseFrac cs2 with
    | none => none
    | some (fr, cs3) =>
      match parseExp cs3 with
      | none => none
      | some (ex, cs4) =>
        let mag : ℚ := ((ip : ℚ) + fr) * pow10Z ex
        some (if signed.1 then -mag else mag, cs4)

def hexVal (c : Char) : Option ℕ :=
  if c.isDigit then some (c.toNat - 48)
  else if 'a' ≤ c ∧ c ≤ 'f' then some (c.toNat - 87)
  else if 'A' ≤ c ∧ c ≤ 'F' then some (c.toNat - 55)
  else none

/-- The remainder of a JSON string literal after the opening quote: plain
characters, the two-character escapes, and `\u` hex escapes, up to the
closing quote. -/
def parseStringBody : List Char → Option (List Char × List Char)
  | [] => none
  | '"' :: rest => some ([], rest)
  | '\\' :: rest =>
    match rest with
    | [] => none
    | 'u' :: h1 :: h2 :: h3 :: h4 :: rest3 =>
      match hexVal h1, hexVal h2, hexVal h3, hexVal h4 with
      | some a, some b, some c, some d =>
        match parseStringBody rest3 with
        | some (s, r) => some (Char.ofNat (((a * 16 + b) * 16 + c) * 16 + d) :: s, r)
        | none => none
      | _, _, _, _ => none
    | e :: rest2 =>
      let esc : Option Char :=
        if e == '"' then some '"'
        else if e == '\\' then some '\\'
        else if e == '/' then some '/'
        else if e == 'b' then some (Char.ofNat 8)
        else if e == 'f' then some (Char.ofNat 12)
        else if e == 'n' then some '\n'
        else if e == 'r' then some (Char.ofNat 13)
        else if e == 't' then some '\t'
        else none
      match esc with
      | some c =>
        match parseStringBody rest2 with
        | some (s, r) => some (c :: s, r)
        | none => none
      | none => none
  | c :: rest =>
    if c.toNat < 32 then none
    else
      match parseStringBody rest with
      | some (s, r) => some (c :: s, r)
      | none => none

mutual

/-- One JSON value (fuelled recursive descent). -/
def parseValue : ℕ → List Char → Option (Json × List Char)
  | 0, _ => none
  | fuel + 1, cs =>
    match skipWs cs with
    | [] => none
    | c :: rest =>
      if c == '{' then
        match skipWs rest with
        | '}' :: r => some (.obj [], r)
        | _ =>
          match parseMembers fuel rest with
          | some (ms, r) => some (.obj ms, r)
          | none => none
      else if c == '[' then
        match skipWs rest with
        | ']' :: r => some (.arr [], r)
        | _ =>
          match parseElems fuel rest with
          | some (es, r) => some (.arr es, r)
          | none => none
      else if c == '"' then
        match parseStringBody rest with
        | some (s, r) => some (.str (String.mk s), r)
        | none => none
      else if c == 't' then
        if "true".toList.isPrefixOf (c :: rest) then
          some (.bool true, (c :: rest).drop 4)
        else none
      else if c == 'f' then
        if "false".toList.isPrefixOf (c :: rest) then
          some (.bool false, (c :: rest).drop 5)
        else none
      else if c == 'n' then
        if "null".toList.isPrefixOf (c :: rest) then
          some (.null, (c :: rest).drop 4)
        else none
      else
        match parseNumber (c :: rest) with
        | some (q, r) => some (.num q, r)
        | none => none

/-- One or more comma-separated array elements up to the closing bracket. -/
def parseElems : ℕ → List Char → Option (List Json × List Char)
  | 0, _ => none
  | fuel + 1, cs =>
    match parseValue fuel cs with
    | none => none
    | some (v, cs1) =>
      match skipWs cs1 with
      | ',' :: cs2 =>
        match parseElems fuel cs2 with
        | some (vs, r) => some (v :: vs, r)
        | none => none
      | ']' :: cs2 => some ([v], cs2)
      | _ => none

/-- One or more comma-separated object members up to the closing brace. -/
def parseMembers : ℕ → List Char → Option (List (String × Json) × List Char)
  | 0, _ => none
  | fuel + 1, cs =>
    match skipWs cs with
    | '"' :: rest =>
      match parseStringBody rest with
      | none => none
      | some (k, cs1) =>
        match skipWs cs1 with
        | ':' :: cs2 =>
          match parseValue fuel cs2 with
          | none => none
          | some (v, cs3) =>
            match skipWs cs3 with
            | ',' :: cs4 =>
              match parseMembers fuel cs4 with
              | some (ms, r) => some ((String.mk k, v) :: ms, r)
              | none => none
            | '}' :: cs4 => some ([(String.mk k, v)], cs4)
            | _ => none
        | _ => none
    | _ => none

end

/-- `JSON.parse(text)`: parse one JSON value and require at most trailing
whitespace after it. -/
def jsonParse (s : String) : Option Json :=
  let cs := s.toList
  match parseValue (2 * cs.length + 2) cs with
  | some (v, r) =>
    match skipWs r with
    | [] => some v
    | _ => none
  | none => none

/-- The two error modes of `extractJson`: the explicit throw when the regex
does not match, and the `SyntaxError` propagated out of `JSON.parse`. -/
inductive ExtractError where
  | noJsonFound
  | syntaxError
deriving Repr, DecidableEq

def isOpenBracket (c : Char) : Bool := c == '{' || c == '['

def isCloseBracket (c : Char) : Bool := c == '}' || c == ']'

/-- The match of the regex in `extractJson` (an opening bracket, anything,
greedily, a closing bracket): its leftmost match runs from the text's first
opening bracket to its last closing bracket, and exists exactly when that
closer comes after that opener. -/
def regexJsonSpan (cs : List Char) : Option (List Char) :=
  let fromOpen := cs.dropWhile (fun c => !isOpenBracket c)
  let spanRev := fromOpen.reverse.dropWhile (fun c => !isCloseBracket c)
  if 2 ≤ spanRev.length then some spanRev.reverse else none

/-- `extractJson(text)`: run the regex, `JSON.parse` the matched span, throw
"No valid JSON object or array found in the AI response." when the regex does
not match, and propagate the parse failure otherwise. -/
def extractJson (s : String) : Except ExtractError Json :=
  match regexJsonSpan s.toList with
  | none => .error .noJsonFound
  | some sp =>
    match jsonParse (String.mk sp) with
    | some v => .ok v
    | none => .error .syntaxError

/-- Modelled from the spec: the first balanced JSON object-or-array substring
of the text — the earliest-starting and, at that start, shortest substring
that parses as a JSON object or array. -/
def firstBalancedJson (s : String) : Option String :=
  let cs := s.toList
  (List.range cs.length).findSome? (fun i =>
    (List.range cs.length).findSome? (fun len =>
      let sub := (cs.drop i).take (len + 1)
      match jsonParse (String.mk sub) with
      | some (.arr _) => some (String.mk sub)
      | some (.obj _) => some (String.mk sub)
      | _ => none))

/-- An opening bracket occurring strictly before a closing bracket — the
condition under which the regex in `extractJson` matches. -/
def hasPairB : List Char → Bool
  | [] => false
  | c :: rest => (isOpenBracket c && rest.any isCloseBracket) || hasPairB rest

theorem dropWhile_append_of_all {α : Type} (p : α → Bool) :
    ∀ (l m : List α), (∀ x ∈ l, p x = true) →
      (l ++ m).dropWhile p = m.dropWhile p
  | [], m, _ => rfl
  | a :: l, m, h => by
    have ha : p a = true := h a (List.mem_cons_self a l)
    simp only [List.cons_append, List.dropWhile_cons, ha, if_true]
    exact dropWhile_append_of_all p l m (fun x hx => h x (List.mem_cons_of_mem _ hx))

theorem dropWhile_append_of_ne {α : Type} (p : α → Bool) :
    ∀ (l m : List α), l.dropWhile p ≠ [] →
      (l ++ m).dropWhile p = l.dropWhile p ++ m
  | [], _, h => absurd rfl h
  | a :: l, m, h => by
    cases ha : p a with
    | true =>
      rw [List.dropWhile_cons_of_pos ha] at h
      simp only [List.cons_append, List.dropWhile_cons, ha, if_true,
        List.dropWhile_cons_of_pos ha]
      exact dropWhile_append_of_ne p l m h
    | false =>
      have hna : ¬ p a = true := by simp [ha]
      simp only [List.cons_append, List.dropWhile_cons_of_neg hna]

theorem open_not_close {c : Char} (h : isOpenBracket c = true) :
    isCloseBracket c = false := by
  unfold isOpenBracket at h
  unfold isCloseBracket
  rcases Bool.or_eq_true_iff.mp h with h1 | h1
  · rw [show c = '{' from by exact beq_iff_eq.mp h1]
    rfl
  · rw [show c = '[' from by exact beq_iff_eq.mp h1]
    rfl

theorem hasPairB_any_close : ∀ cs : List Char, hasPairB cs = true →
    cs.any isCloseBracket = true
  | c :: rest, h => by
    unfold hasPairB at h
    rcases Bool.or_eq_true_iff.mp h with h1 | h1
    · have := (Bool.and_eq_true_iff.mp h1).2
      simp [List.any_cons, this]
    · simp [List.any_cons, hasPairB_any_close rest h1]

theorem regexJsonSpan_isSome_eq_hasPairB :
    ∀ cs : List Char, (regexJsonSpan cs).isSome = hasPairB cs
  | [] => rfl
  | c :: rest => by
    cases hc : isOpenBracket c with
    | false =>
      have h1 : regexJsonSpan (c :: rest) = regexJsonSpan rest := by
        simp only [regexJsonSpan]
        rw [List.dropWhile_cons_of_pos (by simp [hc])]
      have h2 : hasPairB (c :: rest) = hasPairB rest := by
        simp only [hasPairB, hc, Bool.false_and, Bool.false_or]
      rw [h1, h2]
      exact regexJsonSpan_isSome_eq_hasPairB rest
    | true =>
      have h2 : hasPairB (c :: rest) = (rest.any isCloseBracket || hasPairB rest) := by
        simp only [hasPairB, hc, Bool.true_and]
      have h1 : regexJsonSpan (c :: rest) =
          (if 2 ≤ ((rest.reverse ++ [c]).dropWhile (fun d => !isCloseBracket d)).length
            then some ((rest.reverse ++ [c]).dropWhile (fun d => !isCloseBracket d)).reverse
            else none) := by
        simp only [regexJsonSpan]
        rw [List.dropWhile_cons_of_neg (by simp [hc]), List.reverse_cons]
      rw [h1, h2]
      cases hany : rest.any isCloseBracket with
      | true =>
        have hne : rest.reverse.dropWhile (fun d => !isCloseBracket d) ≠ [] := by
          intro hnil
          have hall := List.dropWhile_eq_nil_iff.mp hnil
          rcases List.any_eq_true.mp hany with ⟨d, hd, hdc⟩
          have := hall d (List.mem_reverse.mpr hd)
          simp [hdc] at this
        rw [dropWhile_append_of_ne _ _ _ hne]
        have hlen : 1 ≤ (rest.reverse.dropWhile (fun d => !isCloseBracket d)).length :=
          Nat.one_le_iff_ne_zero.mpr (fun h0 => hne (List.eq_nil_of_length_eq_zero h0))
        rw [if_pos (by simp only [List.length_append, List.length_cons,
          List.length_nil]; omega)]
        rfl
      | false =>
        have hall : ∀ x ∈ rest.reverse, (fun d => !isCloseBracket d) x = true := by
          intro x hx
          have hx0 : isCloseBracket x = false := by
            by_contra hcl
            have hcl' : isCloseBracket x = true := by
              cases hxx : isCloseBracket x
              · exact absurd hxx hcl
              · rfl
            have hco : rest.any isCloseBracket = true :=
              List.any_eq_true.mpr ⟨x, List.mem_reverse.mp hx, hcl'⟩
            rw [hany] at hco
            exact Bool.noConfusion hco
          simp [hx0]
        rw [dropWhile_append_of_all _ _ _ hall,
          List.dropWhile_cons_of_pos (by simp [open_not_close hc]), List.dropWhile_nil]
        rw [if_neg (by simp)]
        cases hp : hasPairB rest with
        | true =>
          have h3 := hasPairB_any_close rest hp
          rw [hany] at h3
          exact Bool.noConfusion h3
        | false => simp

theorem hasPairB_iff_decomp : ∀ cs : List Char, hasPairB cs = true ↔
    ∃ l₁ c l₂ d l₃, cs = l₁ ++ c :: l₂ ++ d :: l₃ ∧
      isOpenBracket c = true ∧ isCloseBracket d = true
  | [] => by
    constructor
    · intro h
      exact Bool.noConfusion h
    · rintro ⟨l₁, c, l₂, d, l₃, habs, -, -⟩
      exact absurd habs (by simp)
  | a :: rest => by
    unfold hasPairB
    constructor
    · intro h
      rcases Bool.or_eq_true_iff.mp h with h1 | h1
      · obtain ⟨ha, hany⟩ := Bool.and_eq_true_iff.mp h1
        rcases List.any_eq_true.mp hany with ⟨d, hd, hdc⟩
        rcases List.append_of_mem hd with ⟨l₂, l₃, hrest⟩
        exact ⟨[], a, l₂, d, l₃, by rw [hrest]; rfl, ha, hdc⟩
      · rcases (hasPairB_iff_decomp rest).mp h1 with ⟨l₁, c, l₂, d, l₃, hrest, hc, hd⟩
        exact ⟨a :: l₁, c, l₂, d, l₃, by rw [hrest]; rfl, hc, hd⟩
    · rintro ⟨l₁, c, l₂, d, l₃, heq, hc, hd⟩
      cases l₁ with
      | nil =>
        simp only [List.nil_append, List.cons_append, List.cons.injEq] at heq
        obtain ⟨hac, hrest⟩ := heq
        apply Bool.or_eq_true_iff.mpr
        left
        apply Bool.and_eq_true_iff.mpr
        refine ⟨hac ▸ hc, ?_⟩
        refine List.any_eq_true.mpr ⟨d, ?_, hd⟩
        rw [hrest]
        simp
      | cons b l₁' =>
        simp only [List.cons_append, List.cons.injEq] at heq
        obtain ⟨-, hrest⟩ := heq
        apply Bool.or_eq_true_iff.mpr
        right
        apply (hasPairB_iff_decomp rest).mpr
        exact ⟨l₁', c, l₂, d, l₃, by rw [hrest], hc, hd⟩

/-- C3 (counterexample): on the text `[1] x [2]` the first balanced JSON
substring is `[1]`, but `extractJson` matches from the first `[` to the last
`]`, hands the whole `[1] x [2]` to `JSON.parse`, and fails with a
`SyntaxError` instead of returning the balanced `[1]` (and instead of
`NoJsonFound`). -/
theorem extractJson_counterexample :
    firstBalancedJson "[1] x [2]" = some "[1]" ∧
    extractJson "[1] x [2]" = .error .syntaxError :=
  ⟨rfl, rfl⟩

/-- C3 (amended): `extractJson` takes the substring running from the first
`{`/`[` of the text to its last `}`/`]` and `JSON.parse`s it, propagating the
parse error when that span is not valid JSON; `NoJsonFound` is raised exactly
when no opening bracket is followed (anywhere later) by a closing bracket. -/
theorem extractJson_amended (s : String) :
    (extractJson s = .error .noJsonFound ↔
      ¬ ∃ l₁ c l₂ d l₃, s.toList = l₁ ++ c :: l₂ ++ d :: l₃ ∧
        isOpenBracket c = true ∧ isCloseBracket d = true) ∧
    (∀ sp, regexJsonSpan s.toList = some sp →
      extractJson s = match jsonParse (String.mk sp) with
        | some v => Except.ok v
        | none => Except.error ExtractError.syntaxError) := by
  constructor
  · rw [← hasPairB_iff_decomp]
    have hiff := regexJsonSpan_isSome_eq_hasPairB s.toList
    unfold extractJson
    cases hspan : regexJsonSpan s.toList with
    | none =>
      rw [hspan] at hiff
      simp only [Option.isSome_none] at hiff
      constructor
      · intro _ hpair
        rw [hpair] at hiff
        exact Bool.noConfusion hiff
      · intro _
        rfl
    | some sp =>
      rw [hspan] at hiff
      simp only [Option.isSome_some] at hiff
      dsimp only
      constructor
      · intro h
        cases hparse : jsonParse (String.mk sp) with
        | some v =>
          rw [hparse] at h
          exact absurd h (by simp)
        | none =>
          rw [hparse] at h
          exact absurd h (by simp)
      · intro hnp
        exact absurd hiff.symm hnp
  · intro sp hspan
    unfold extractJson
    rw [hspan]

/-- Witness for `extractJson_amended`: on the text `[1]` the regex span is the
whole text and `extractJson` returns its `JSON.parse`. -/
theorem extractJson_amended_witness :
    extractJson "[1]" = (match jsonParse (String.mk "[1]".toList) with
      | some v => Except.ok v
      | none => Except.error ExtractError.syntaxError) :=
  (extractJson_amended "[1]").2 ("[1]".toList) rfl

/-! ## Sequence Model validation and the Generation Orchestrator -/

/-- JavaScript truthiness of a parsed JSON value (`NaN` cannot arise from
exact parsing, so a number is falsy exactly when it is 0). -/
def jsTruthy : Json → Bool
  | .null => false
  | .bool b => b
  | .num q => !(q == 0)
  | .str s => !s.isEmpty
  | .arr _ => true
  | .obj _ => true

/-- JavaScript property lookup on an object literal: the first member with
the given key, if any. -/
def jsonLookup (members : List (String × Json)) (k : String) : Option Json :=
  (members.find? (fun m => m.1 == k)).map (fun m => m.2)

/-- The two ways the parse step can throw: the JS `TypeError` raised by
`parsedData.tracks` when `parsedData` is `null`, and the explicit
`"JSON response did not contain a 'tracks' array."` error. -/
inductive ParseSeqError where
  | typeError
  | noTracks
deriving Repr, DecidableEq

/-- `sequenceData = Array.isArray(parsedData) ? parsedData : parsedData.tracks;
if (!sequenceData) throw new Error(...)` — the step that turns the parsed
JSON value into the new current sequence. -/
def seqOfParsed : Json → Except ParseSeqError Json
  | .arr ts => .ok (.arr ts)
  | .null => .error .typeError
  | .obj members =>
    match jsonLookup members "tracks" with
    | some v => if jsTruthy v then .ok v else .error .noTracks
    | none => .error .noTracks
  | .bool _ => .error .noTracks
  | .num _ => .error .noTracks
  | .str _ => .error .noTracks

/-- Modelled from the spec: the parsed value is neither an array nor an
object carrying a non-null `tracks` value. -/
def notTracksShaped (j : Json) : Prop :=
  (∀ T, j ≠ Json.arr T) ∧
  (∀ members, j = Json.obj members →
    jsonLookup members "tracks" = none ∨ jsonLookup members "tracks" = some Json.null)

/-- C6: a bare array and the wrapped `{"tracks": ...}` form both parse to the
same sequence; and whenever the value is neither an array nor an object with
a non-null `tracks` value the step fails — with the explicit no-tracks error
in every case except the bare `null` value, where JavaScript raises a
`TypeError` on the property access (caught and surfaced by the same
handler). -/
theorem parse_step_shapes :
    (∀ T : List Json, seqOfParsed (.arr T) = .ok (.arr T) ∧
      seqOfParsed (.obj [("tracks", .arr T)]) = .ok (.arr T)) ∧
    (∀ j : Json, notTracksShaped j → ∃ e, seqOfParsed j = .error e) ∧
    (∀ j : Json, j ≠ .null → notTracksShaped j →
      seqOfParsed j = .error .noTracks) ∧
    seqOfParsed .null = .error .typeError := by
  refine ⟨?_, ?_, ?_, rfl⟩
  · intro T
    exact ⟨rfl, rfl⟩
  · intro j hj
    rcases hshape : j with _ | b | q | s | T | members
    · exact ⟨.typeError, rfl⟩
    · exact ⟨.noTracks, rfl⟩
    · exact ⟨.noTracks, rfl⟩
    · exact ⟨.noTracks, rfl⟩
    · exact absurd rfl (hshape ▸ hj.1 T)
    · rcases (hshape ▸ hj.2) members rfl with hnone | hnull
      · exact ⟨.noTracks, by simp [seqOfParsed, hnone]⟩
      · exact ⟨.noTracks, by simp [seqOfParsed, hnull, jsTruthy]⟩
  · intro j hne hj
    rcases hshape : j with _ | b | q | s | T | members
    · exact absurd rfl (hshape ▸ hne)
    · rfl
    · rfl
    · rfl
    · exact absurd rfl (hshape ▸ hj.1 T)
    · rcases (hshape ▸ hj.2) members rfl with hnone | hnull
      · simp [seqOfParsed, hnone]
      · simp [seqOfParsed, hnull, jsTruthy]

/-- Witness for `parse_step_shapes`: the value `{"tracks": null}` is rejected
with the explicit no-tracks error. -/
theorem parse_step_shapes_witness :
    seqOfParsed (Json.obj [("tracks", Json.null)]) =
      Except.error ParseSeqError.noTracks :=
  parse_step_shapes.2.2.1 (Json.obj [("tracks", Json.null)])
    (fun h => Json.noConfusion h)
    ⟨fun T h => Json.noConfusion h,
      fun members hm => by
        injection hm with hmem
        rw [← hmem]
        right
        rfl⟩

/-- A catalog row: `{filename, category, pack}`. -/
structure SampleEntry where
  filename : String
  category : String
  pack : String
deriving Repr, DecidableEq

/-- `String.prototype.toLowerCase` as applied to the ASCII category names. -/
def jsToLower (s : String) : String := String.mk (s.toList.map Char.toLower)

/-- `String.prototype.includes`: the needle occurs as a contiguous substring
of the haystack. -/
def strIncludes (hay needle : String) : Bool :=
  (List.range (hay.toList.length + 1)).any
    (fun i => needle.toList.isPrefixOf (hay.toList.drop i))

/-- `findSamples(category, count)`: keep the entries whose (truthy) category
contains the query case-insensitively, shuffle them (`.sort(() => 0.5 -
Math.random())`, modelled as an arbitrary reordering), take `count`, and
return the filenames. -/
def findSamples (shuffle : List SampleEntry → List SampleEntry)
    (db : List SampleEntry) (category : String) (count : ℕ) : List String :=
  ((shuffle (db.filter (fun s => !s.category.isEmpty &&
      strIncludes (jsToLower s.category) (jsToLower category)))).take count).map
    (fun s => s.filename)

/-- The outcome of the `fetch` to the generator service as observed by
`getAIResponse`: a rejection / non-OK response, or the raw response text. -/
inductive FetchResult where
  | networkError
  | ok (responseText : String)

/-- The app state `getAIResponse` reads and writes. -/
structure OrchestratorState where
  currentSequence : Json
  downloadEnabled : Bool
  status : String

/-- Whether one assigned track survives
`track.steps.map(step => step.file)` in `loadSamplesForSequence` and
`track.steps.forEach(...)` in `renderRecipe`: the track must be an object
whose `steps` member is itself an array, and no step may be `null` (a `null`
step throws a `TypeError` on the `step.file` access; a missing or non-array
`steps` throws on the `.map` call). -/
def stepsOk : Json → Bool
  | .obj members =>
    match jsonLookup members "steps" with
    | some (.arr steps) =>
      steps.all (fun st =>
        match st with
        | .null => false
        | _ => true)
    | _ => false
  | _ => false

/-- Whether `loadSamplesForSequence` and `renderRecipe` complete without
throwing on the assigned sequence value: it must itself be an array (on any
other value `.flatMap` is not a function) and every track must pass
`stepsOk`.  Individual sample fetch/decode failures are caught per file and
never throw. -/
def loadRenderOk : Json → Bool
  | .arr tracks => tracks.all stepsOk
  | _ => false

/-- One invocation of `getAIResponse()`, parameterized by the shuffles used
by the three `findSamples` calls and by the fetch outcome.  The
insufficient-samples check returns before the network is consulted.  A
truthy tracks value is assigned to `currentSequence` *before*
`loadSamplesForSequence`/`renderRecipe` run, so when that later step throws
a `TypeError` the attempt fails (error status, download still disabled) with
the sequence already replaced. -/
def getAIResponse (sh1 sh2 sh3 : List SampleEntry → List SampleEntry)
    (db : List SampleEntry) (fetch : FetchResult)
    (st : OrchestratorState) : OrchestratorState :=
  let kicks := findSamples sh1 db "Drums" 5
  let snares := findSamples sh2 db "Drums" 5
  let hats := findSamples sh3 db "Drums" 5
  if kicks.isEmpty || snares.isEmpty || hats.isEmpty then
    { st with downloadEnabled := false, status := "Error: Not enough drum samples found in the database." }
  else
    match fetch with
    | .networkError =>
      { st with downloadEnabled := false, status := "Error: Could not get a valid response from the AI." }
    | .ok text =>
      match extractJson text with
      | .error _ =>
        { st with downloadEnabled := false, status := "Error: Could not get a valid response from the AI." }
      | .ok parsed =>
        match seqOfParsed parsed with
        | .error _ =>
          { st with downloadEnabled := false, status := "Error: Could not get a valid response from the AI." }
        | .ok v =>
          if loadRenderOk v then
            { currentSequence := v, downloadEnabled := true, status := "Samples loaded. Ready to play!" }
          else
            { currentSequence := v, downloadEnabled := false, status := "Error: Could not get a valid response from the AI." }

/-- The tracks value the pipeline accepts and assigns to `currentSequence`,
when it reaches the assignment at all: samples found, fetch succeeded, JSON
extracted, tracks value truthy. -/
def acceptedTracks (sh1 sh2 sh3 : List SampleEntry → List SampleEntry)
    (db : List SampleEntry) (fetch : FetchResult) : Option Json :=
  if (findSamples sh1 db "Drums" 5).isEmpty ||
      (findSamples sh2 db "Drums" 5).isEmpty ||
      (findSamples sh3 db "Drums" 5).isEmpty then none
  else
    match fetch with
    | .networkError => none
    | .ok text =>
      match extractJson text with
      | .error _ => none
      | .ok parsed =>
        match seqOfParsed parsed with
        | .error _ => none
        | .ok v => some v

/-- The fully successful generation result, when there is one: the accepted
tracks value, provided the subsequent sample-loading and recipe-rendering
also complete without throwing. -/
def generationResult (sh1 sh2 sh3 : List SampleEntry → List SampleEntry)
    (db : List SampleEntry) (fetch : FetchResult) : Option Json :=
  match acceptedTracks sh1 sh2 sh3 db fetch with
  | some v => if loadRenderOk v then some v else none
  | none => none

/-- C7 (counterexample): with a drum sample in the catalog and the response
`["x"]`, the tracks value is truthy, so `currentSequence` is assigned before
the sample-loading step, which then throws a `TypeError` (the track `"x"`
has no `steps` array): the attempt fails — error status, download disabled,
`generationResult` is `none` — yet the previously held sequence `[]` has
been replaced by the broken `["x"]`. -/
theorem failed_attempt_replaces_sequence :
    generationResult id id id [⟨"k.wav", "Drums", "p"⟩]
      (FetchResult.ok "[\"x\"]") = none ∧
    getAIResponse id id id [⟨"k.wav", "Drums", "p"⟩] (FetchResult.ok "[\"x\"]")
      ⟨Json.arr [], false, ""⟩ =
      ⟨Json.arr [Json.str "x"], false,
        "Error: Could not get a valid response from the AI."⟩ :=
  ⟨rfl, rfl⟩

/-- C7 (amended): a generation attempt that fails before a tracks value is
accepted (insufficient samples, service error, missing or unparseable JSON,
missing/falsy `tracks`) leaves the current Sequence exactly as it was; but
the code assigns an accepted truthy tracks value to `currentSequence` before
loading samples and rendering the recipe, so an attempt that fails in that
later step replaces the Sequence all the same; on a fully successful attempt
the Sequence carries the result and the download is enabled. -/
theorem generation_sequence_replacement
    (sh1 sh2 sh3 : List SampleEntry → List SampleEntry)
    (db : List SampleEntry) (fetch : FetchResult) (st : OrchestratorState) :
    (acceptedTracks sh1 sh2 sh3 db fetch = none →
      (getAIResponse sh1 sh2 sh3 db fetch st).currentSequence =
        st.currentSequence) ∧
    (∀ v, acceptedTracks sh1 sh2 sh3 db fetch = some v →
      (getAIResponse sh1 sh2 sh3 db fetch st).currentSequence = v) ∧
    (∀ v, generationResult sh1 sh2 sh3 db fetch = some v →
      (getAIResponse sh1 sh2 sh3 db fetch st).currentSequence = v ∧
      (getAIResponse sh1 sh2 sh3 db fetch st).downloadEnabled = true) := by
  unfold generationResult acceptedTracks getAIResponse
  by_cases hk : ((findSamples sh1 db "Drums" 5).isEmpty ||
      (findSamples sh2 db "Drums" 5).isEmpty ||
      (findSamples sh3 db "Drums" 5).isEmpty) = true
  · simp [hk]
  · cases fetch with
    | networkError => simp [hk]
    | ok text =>
      cases hext : extractJson text with
      | error e => simp [hk, hext]
      | ok parsed =>
        cases hseq : seqOfParsed parsed with
        | error e => simp [hk, hext, hseq]
        | ok v =>
          cases hok : loadRenderOk v with
          | true => simp [hk, hext, hseq, hok]
          | false => simp [hk, hext, hseq, hok]

/-- Witness for `generation_sequence_replacement`: with an empty catalog and
a failing fetch no tracks value is accepted, and the held sequence survives
the attempt. -/
theorem generation_sequence_replacement_witness :
    (getAIResponse id id id [] FetchResult.networkError
      ⟨Json.arr [], false, ""⟩).currentSequence = Json.arr [] :=
  (generation_sequence_replacement id id id [] FetchResult.networkError
    ⟨Json.arr [], false, ""⟩).1 rfl

/-- C8: when no catalog entry has a category containing "Drums"
(case-insensitively), `getAIResponse` stops with the insufficient-samples
status, and its result is the same whatever the network would have answered
— the fetch outcome is never consumed. -/
theorem insufficient_samples_before_network
    (sh1 sh2 sh3 : List SampleEntry → List SampleEntry)
    (hsh1 : sh1 [] = []) (hsh2 : sh2 [] = []) (hsh3 : sh3 [] = [])
    (db : List SampleEntry)
    (h : ∀ e ∈ db, strIncludes (jsToLower e.category) (jsToLower "Drums") = false)
    (fetch fetch2 : FetchResult) (st : OrchestratorState) :
    getAIResponse sh1 sh2 sh3 db fetch st =
      { st with downloadEnabled := false, status := "Error: Not enough drum samples found in the database." } ∧
    getAIResponse sh1 sh2 sh3 db fetch st =
      getAIResponse sh1 sh2 sh3 db fetch2 st := by
  have hfil : db.filter (fun s => !s.category.isEmpty &&
      strIncludes (jsToLower s.category) (jsToLower "Drums")) = [] := by
    rw [List.filter_eq_nil_iff]
    intro x hx hpx
    have := (Bool.and_eq_true_iff.mp hpx).2
    rw [h x hx] at this
    exact Bool.noConfusion this
  have hk1 : findSamples sh1 db "Drums" 5 = [] := by
    unfold findSamples
    rw [hfil, hsh1]
    rfl
  have hk2 : findSamples sh2 db "Drums" 5 = [] := by
    unfold findSamples
    rw [hfil, hsh2]
    rfl
  have hk3 : findSamples sh3 db "Drums" 5 = [] := by
    unfold findSamples
    rw [hfil, hsh3]
    rfl
  unfold getAIResponse
  rw [hk1, hk2, hk3]
  exact ⟨rfl, rfl⟩

/-- Witness for `insufficient_samples_before_network` on a catalog holding a
single guitar sample: generation stops before the network with the
insufficient-samples status. -/
theorem insufficient_samples_before_network_witness :
    getAIResponse id id id [⟨"g.wav", "Guitar", "p"⟩] FetchResult.networkError
      ⟨Json.arr [], false, ""⟩ =
      ⟨Json.arr [], false,
        "Error: Not enough drum samples found in the database."⟩ :=
  (insufficient_samples_before_network id id id rfl rfl rfl
    [⟨"g.wav", "Guitar", "p"⟩]
    (by
      intro e he
      rw [List.mem_singleton] at he
      subst he
      rfl)
    FetchResult.networkError (FetchResult.ok "x")
    ⟨Json.arr [], false, ""⟩).1

end BeatMaker
